import Mathlib

/-!
Verification of the `tinyraytracer_deeprt` renderer
(`src/tinyraytracer_deeprt/src/tinyraytracer.cpp`).

The C++ code computes with IEEE `float`; this development embeds it over the
real numbers `ℝ`, the idealization the spec itself is written in (its formulas
are exact real-number formulas).  Every definition below is translated from the
source file, with the line numbers of the embedded code given in its doc
comment.  The float-vector library `geometry.h` is not part of `src/` and is
declared out of scope by the spec, so its handful of operations (component
access, addition, subtraction, scaling, dot product, normalization, length)
are modelled from the spec's description of them.
-/

namespace TinyRT

noncomputable section

/-- Modelled from the spec: 3-component float vector (`Vec3f` of the out-of-scope
`geometry.h` library; spec §1 "a generic float-vector arithmetic library"). -/
@[ext]
structure Vec3 where
  x : ℝ
  y : ℝ
  z : ℝ

/-- Modelled from the spec: 4-component float vector (`Vec4f`); the albedo's four
weights, indexed 0..3 in the source, are the fields `x y z w` here. -/
@[ext]
structure Vec4 where
  x : ℝ
  y : ℝ
  z : ℝ
  w : ℝ

/-- Modelled from the spec: componentwise vector addition. -/
instance : Add Vec3 := ⟨fun a b => ⟨a.x + b.x, a.y + b.y, a.z + b.z⟩⟩

/-- Modelled from the spec: componentwise vector subtraction. -/
instance : Sub Vec3 := ⟨fun a b => ⟨a.x - b.x, a.y - b.y, a.z - b.z⟩⟩

/-- Modelled from the spec: componentwise vector negation. -/
instance : Neg Vec3 := ⟨fun a => ⟨-a.x, -a.y, -a.z⟩⟩

/-- Modelled from the spec: scaling a vector by a scalar on the right, the
`Vec3f * float` overload the source uses throughout. -/
instance : HMul Vec3 ℝ Vec3 := ⟨fun v s => ⟨v.x * s, v.y * s, v.z * s⟩⟩

/-- Modelled from the spec: dot product, the `Vec3f * Vec3f` overload. -/
def vdot (a b : Vec3) : ℝ := a.x * b.x + a.y * b.y + a.z * b.z

/-- Modelled from the spec: Euclidean length of a vector. -/
def vnorm (v : Vec3) : ℝ := Real.sqrt (vdot v v)

/-- Modelled from the spec: normalization, `v * (1 / |v|)`. -/
def vnormalize (v : Vec3) : Vec3 := v * (1 / vnorm v)

/-- `#define MAX_DISTANCE 9999.f` (line 11). -/
def MAX_DISTANCE : ℝ := 9999

/-- `#define EPSILON 1e-3f` (line 12). -/
def EPSILON : ℝ := 1 / 1000

/-- `#define MAX_MARCHING_STEPS 128` (line 13). -/
def MAX_MARCHING_STEPS : ℕ := 128

/-- `std::numeric_limits<float>::max()` (line 157): the largest finite `float`,
`(2 - 2⁻²³)·2¹²⁷ = 2¹²⁸ - 2¹⁰⁴`.  Only its size relative to `MAX_DISTANCE` and
`1000` matters in the source. -/
def FLT_MAX : ℝ := 2 ^ 128 - 2 ^ 104

/-- `struct Light` (lines 15-19). -/
structure Light where
  position : Vec3
  intensity : ℝ

/-- `struct Material` (lines 21-28). -/
structure Material where
  refractive_index : ℝ
  albedo : Vec4
  diffuse_color : Vec3
  specular_exponent : ℝ

/-- The default constructor `Material()` (line 23): refractive index 1, albedo
`(1,0,0,0)`, zero diffuse color, zero specular exponent. -/
def default_material : Material := ⟨1, ⟨1, 0, 0, 0⟩, ⟨0, 0, 0⟩, 0⟩

/-- `class sdf_model` (lines 30-39): an implicit-surface primitive bundles a
signed-distance function, a fallible normal estimator (`try_get_normal`,
returning `none` where the C++ returns `false`), and an owned material. -/
structure sdf_model where
  sdf : Vec3 → ℝ
  try_get_normal : Vec3 → Option Vec3
  material : Material

/-- `struct Sphere` data (lines 41-45). -/
structure Sphere where
  center : Vec3
  radius : ℝ
  material : Material

/-- `Sphere::sdf` (lines 47-50): `(point - center).norm() - radius`. -/
def Sphere.sdf (s : Sphere) (point : Vec3) : ℝ := vnorm (point - s.center) - s.radius

/-- `Sphere::try_get_normal` (lines 52-61): fails when `|‖point - center‖| < EPSILON`,
otherwise returns the normalized center-to-point vector. -/
def Sphere.try_get_normal (s : Sphere) (point : Vec3) : Option Vec3 :=
  let point_to_center := point - s.center
  if |vnorm point_to_center| < EPSILON then none
  else some (vnormalize point_to_center)

/-- A `Sphere` used as an `sdf_model`, as the virtual dispatch of the source does. -/
def Sphere.toModel (s : Sphere) : sdf_model := ⟨s.sdf, s.try_get_normal, s.material⟩

/-- `Sphere::ray_intersect` (lines 63-75): geometric ray-sphere intersection;
`none` where the C++ returns `false`, `some t0` for the reported distance. -/
def Sphere.ray_intersect (s : Sphere) (orig dir : Vec3) : Option ℝ :=
  let L := s.center - orig
  let tca := vdot L dir
  if tca < 0 then none
  else
    let d2 := vdot L L - tca * tca
    if d2 > s.radius * s.radius then none
    else
      let thc := Real.sqrt (s.radius * s.radius - d2)
      let t0 := tca - thc
      let t1 := tca + thc
      let t0a := if t0 < 0 then t1 else t0
      if t0a < 0 then none else some t0a

/-- `std::clamp(v, lo, hi)` (used at line 80). -/
def clampR (v lo hi : ℝ) : ℝ := max lo (min hi v)

/-- The transmitted sine computed by `fresnel` (line 84):
`sint = etai/etat * sqrt(max(0, 1 - cosi²))` after the index swap of line 82. -/
def fresnel_sint (I N : Vec3) (ior : ℝ) : ℝ :=
  let cosi := clampR (vdot I N) (-1) 1
  let etai := if 0 < cosi then ior else 1
  let etat := if 0 < cosi then 1 else ior
  etai / etat * Real.sqrt (max 0 (1 - cosi * cosi))

/-- `fresnel` (lines 78-98), returning the out-parameter `kr`: clamp the incident
cosine to `[-1,1]`, swap the indices when the ray exits the medium, set `kr = 1`
on total internal reflection (`sint ≥ 1`), otherwise average the squared s- and
p-polarization reflectances. -/
def fresnel (I N : Vec3) (ior : ℝ) : ℝ :=
  let cosi := clampR (vdot I N) (-1) 1
  let etai := if 0 < cosi then ior else 1
  let etat := if 0 < cosi then 1 else ior
  let sint := etai / etat * Real.sqrt (max 0 (1 - cosi * cosi))
  if 1 ≤ sint then 1
  else
    let cost := Real.sqrt (max 0 (1 - sint * sint))
    let cosia := |cosi|
    let Rs := (etat * cosia - etai * cost) / (etat * cosia + etai * cost)
    let Rp := (etai * cosia - etat * cost) / (etai * cosia + etat * cost)
    (Rs * Rs + Rp * Rp) / 2

/-- `reflect` (lines 100-102): `I - N*2*(I·N)`. -/
def reflect (I N : Vec3) : Vec3 := I - N * (2 : ℝ) * (vdot I N)

/-- The discriminant `k = 1 - eta²(1 - cosi²)` of `refract` (line 108). -/
def refract_k (I N : Vec3) (eta_t eta_i : ℝ) : ℝ :=
  let cosi := -(clampR (vdot I N) (-1) 1)
  let eta := eta_i / eta_t
  1 - eta * eta * (1 - cosi * cosi)

/-- The non-recursing branch of `refract` (lines 104-110): the body executed when
`cosi ≥ 0`; returns the fixed degenerate direction `(1,0,0)` when the
discriminant is negative. -/
def refract_core (I N : Vec3) (eta_t eta_i : ℝ) : Vec3 :=
  let cosi := -(clampR (vdot I N) (-1) 1)
  let eta := eta_i / eta_t
  let k := 1 - eta * eta * (1 - cosi * cosi)
  if k < 0 then ⟨1, 0, 0⟩ else I * eta + N * (eta * cosi - Real.sqrt k)

/-- `refract` (lines 104-110).  The C++ recursion (`if (cosi<0) return
refract(I, -N, eta_i, eta_t)`) runs at most once: the recursive call recomputes
`cosi` as `-clamp(I·(-N), -1, 1) = -cosi > 0`, so it takes the non-recursing
branch, which is `refract_core` (see `refract_recursion_stops` below).  The
recursion is therefore unfolded once here. -/
def refract (I N : Vec3) (eta_t eta_i : ℝ) : Vec3 :=
  let cosi := -(clampR (vdot I N) (-1) 1)
  if cosi < 0 then refract_core I (-N) eta_i eta_t else refract_core I N eta_t eta_i

/-- The loop of `scene_sdf` (lines 116-127): running minimum distance and hit
model over the primitive list; a primitive with negative distance is skipped,
one not strictly below the running minimum leaves the state unchanged. -/
def scene_sdf_aux (point : Vec3) : List sdf_model → ℝ → Option sdf_model → ℝ × Option sdf_model
  | [], min_dist, hit_model => (min_dist, hit_model)
  | m :: ms, min_dist, hit_model =>
    let dist := m.sdf point
    if dist < 0 then scene_sdf_aux point ms min_dist hit_model
    else if min_dist > dist then scene_sdf_aux point ms dist (some m)
    else scene_sdf_aux point ms min_dist hit_model

/-- `scene_sdf` (lines 112-129): starts from `min_dist = MAX_DISTANCE`,
`hit_model = nullptr` (here `none`). -/
def scene_sdf (point : Vec3) (models : List sdf_model) : ℝ × Option sdf_model :=
  scene_sdf_aux point models MAX_DISTANCE none

/-- The out-parameters `hit`, `N`, `material` of `ray_marching` (line 131),
threaded as explicit state because on some paths the C++ leaves some of them
untouched (e.g. a checkerboard hit writes only `material.diffuse_color`). -/
structure MarchState where
  hit : Vec3
  n : Vec3
  material : Material

/-- The default-constructed locals `Vec3f point, N; Material material;` of
`cast_ray` (lines 199-200), and likewise `shadow_pt, shadow_N, tmpmaterial`
(lines 227-228): zero vectors and the default material. -/
def cast_init_state : MarchState := ⟨⟨0, 0, 0⟩, ⟨0, 0, 0⟩, default_material⟩

/-- Lines 146-147: on a hit the normal comes from `try_get_normal`; when that
fails the C++ logs "normal bug!" and proceeds with `N` unchanged. -/
def march_normal (m : sdf_model) (p : Vec3) (prior : Vec3) : Vec3 :=
  match m.try_get_normal p with
  | some nn => nn
  | none => prior

/-- The marching loop of `ray_marching` (lines 133-155): at most
`MAX_MARCHING_STEPS` sphere-tracing steps from `depth = EPSILON`.  `none` when
the loop ends without a primitive hit (budget exhausted, or `scene_sdf` found
no candidate and the loop breaks); `some` carries the written out-parameters. -/
def march_loop (orig dir : Vec3) (models : List sdf_model) (s : MarchState) :
    ℕ → ℝ → Option MarchState
  | 0, _ => none
  | fuel + 1, depth =>
    let r := scene_sdf (orig + dir * depth) models
    match r.2 with
    | none => none
    | some hit_model =>
      let dist := r.1
      let depth2 := depth + dist
      if dist < EPSILON then
        let hitp := orig + dir * depth2
        some ⟨hitp, march_normal hit_model hitp s.n, hit_model.material⟩
      else
        march_loop orig dir models s fuel depth2

/-- The checkerboard plane distance `d = -(orig.y + 4) / dir.y` (line 159). -/
def plane_t (orig dir : Vec3) : ℝ := -(orig.y + 4) / dir.y

/-- C's `int(q)` conversion from `float` (line 165): truncation toward zero,
i.e. floor for nonnegative arguments and ceiling for negative ones. -/
def c_int (q : ℝ) : ℤ := if 0 ≤ q then ⌊q⌋ else ⌈q⌉

/-- The tile color of line 165: light gray when
`int(0.5*x + 1000) + int(0.5*z)` is odd (C's `& 1` on a two's-complement `int`
tests oddness), brown otherwise. -/
def tile_color (px pz : ℝ) : Vec3 :=
  if Odd (c_int (0.5 * px + 1000) + c_int (0.5 * pz)) then ⟨0.3, 0.3, 0.3⟩
  else ⟨0.3, 0.2, 0.1⟩

/-- The checkerboard fallback of `ray_marching` (lines 157-167): the plane
distance (or `FLT_MAX` when no valid plane hit exists) and the possibly updated
out-parameters.  On a valid hit only `material.diffuse_color` is written. -/
def checkerboard (orig dir : Vec3) (s : MarchState) : ℝ × MarchState :=
  if EPSILON < |dir.y| then
    if 0 < plane_t orig dir ∧ |(orig + dir * plane_t orig dir).x| < 10 ∧
        (orig + dir * plane_t orig dir).z < -10 ∧ -30 < (orig + dir * plane_t orig dir).z then
      (plane_t orig dir,
        ⟨orig + dir * plane_t orig dir, ⟨0, 1, 0⟩,
          { s.material with diffuse_color := (tile_color
              (orig + dir * plane_t orig dir).x (orig + dir * plane_t orig dir).z) }⟩)
    else (FLT_MAX, s)
  else (FLT_MAX, s)

/-- `ray_marching` (lines 131-170): march up to the step budget; on a primitive
hit return `true` with the written out-parameters; otherwise try the
checkerboard plane and succeed iff `min(MAX_DISTANCE, checkerboard_dist) < 1000`. -/
def ray_marching (orig dir : Vec3) (models : List sdf_model) (s : MarchState) :
    Bool × MarchState :=
  match march_loop orig dir models s MAX_MARCHING_STEPS EPSILON with
  | some s2 => (true, s2)
  | none =>
    let cb := checkerboard orig dir s
    (decide (min MAX_DISTANCE cb.1 < 1000), cb.2)

/-- The per-light loop of `cast_ray` (lines 221-234), folded over the light list
with the running `(diffuse_light_intensity, specular_light_intensity)` sums.
A light is skipped when a shadow march from the offset origin hits a surface
strictly closer than the light. -/
def direct_lighting (point N dir : Vec3) (models : List sdf_model) (spec_exp : ℝ) :
    List Light → ℝ × ℝ → ℝ × ℝ
  | [], acc => acc
  | l :: ls, acc =>
    let light_dir := vnormalize (l.position - point)
    let light_distance := vnorm (l.position - point)
    let shadow_orig := if vdot light_dir N < 0 then point - N * EPSILON
      else point + N * EPSILON
    let sres := ray_marching shadow_orig light_dir models cast_init_state
    if sres.1 = true ∧ vnorm (sres.2.hit - shadow_orig) < light_distance then
      direct_lighting point N dir models spec_exp ls acc
    else
      direct_lighting point N dir models spec_exp ls
        (acc.1 + l.intensity * max 0 (vdot light_dir N),
         acc.2 + Real.rpow (max 0 (vdot (-(reflect (-light_dir) N)) dir)) spec_exp
           * l.intensity)

/-- The reflected secondary-ray direction of line 217. -/
def reflect_dir_of (dir N : Vec3) : Vec3 := vnormalize (reflect dir N)

/-- The refracted secondary-ray direction of line 212 (`refract` with its
default `eta_i = 1`). -/
def refract_dir_of (dir N : Vec3) (idx : ℝ) : Vec3 := vnormalize (refract dir N idx 1)

/-- The epsilon offset of the secondary-ray origin (lines 213, 218, 226): step
off the surface on the side the new direction points to.  (The source writes
the literal `1e-3` at lines 218 and 226 and `EPSILON` at line 213; both denote
the same value.) -/
def offset_orig (point N d : Vec3) : Vec3 :=
  if vdot d N < 0 then point - N * EPSILON else point + N * EPSILON

/-- `cast_ray` (lines 198-237): background below depth cap or on a miss;
otherwise Fresnel split, refraction recursion when `kr < 1`, reflection
recursion, direct lighting, and the final composite of line 236 (in which the
commented-out `kr` factors do not appear). -/
def cast_ray (orig dir : Vec3) (models : List sdf_model) (lights : List Light)
    (depth : ℕ) : Vec3 :=
  if h : 4 < depth ∨ (ray_marching orig dir models cast_init_state).1 = false then
    ⟨0.2, 0.7, 0.8⟩
  else
    let st := (ray_marching orig dir models cast_init_state).2
    let kr := fresnel dir st.n st.material.refractive_index
    let refract_color :=
      if kr < 1 then
        cast_ray (offset_orig st.hit st.n (refract_dir_of dir st.n st.material.refractive_index))
          (refract_dir_of dir st.n st.material.refractive_index) models lights (depth + 1)
      else ⟨0, 0, 0⟩
    let reflect_color :=
      cast_ray (offset_orig st.hit st.n (reflect_dir_of dir st.n))
        (reflect_dir_of dir st.n) models lights (depth + 1)
    let li := direct_lighting st.hit st.n dir models st.material.specular_exponent lights (0, 0)
    st.material.diffuse_color * li.1 * st.material.albedo.x
      + (⟨1, 1, 1⟩ : Vec3) * li.2 * st.material.albedo.y
      + reflect_color * st.material.albedo.z
      + refract_color * st.material.albedo.w
termination_by 5 - depth
decreasing_by
  all_goals
    rcases not_or.mp h with ⟨h1, h2⟩
    omega

/-- The depth parameters of every `cast_ray` invocation in the recursion tree
rooted at the given call: the guard, the branch conditions and the child rays
mirror `cast_ray` exactly (a refraction child iff `kr < 1`, always a reflection
child), but the depths are collected instead of the colors. -/
def cast_depths (orig dir : Vec3) (models : List sdf_model) (lights : List Light)
    (depth : ℕ) : List ℕ :=
  if h : 4 < depth ∨ (ray_marching orig dir models cast_init_state).1 = false then
    [depth]
  else
    let st := (ray_marching orig dir models cast_init_state).2
    let kr := fresnel dir st.n st.material.refractive_index
    let refract_depths :=
      if kr < 1 then
        cast_depths (offset_orig st.hit st.n (refract_dir_of dir st.n st.material.refractive_index))
          (refract_dir_of dir st.n st.material.refractive_index) models lights (depth + 1)
      else []
    let reflect_depths :=
      cast_depths (offset_orig st.hit st.n (reflect_dir_of dir st.n))
        (reflect_dir_of dir st.n) models lights (depth + 1)
    depth :: (refract_depths ++ reflect_depths)
termination_by 5 - depth
decreasing_by
  all_goals
    rcases not_or.mp h with ⟨h1, h2⟩
    omega

/-- The tone-mapping of `render` (lines 260-261): when the maximum channel
exceeds 1, scale the pixel by its reciprocal. -/
def tone_map (c : Vec3) : Vec3 :=
  let m := max c.x (max c.y c.z)
  if 1 < m then c * (1 / m) else c

/-- The per-channel clamp of line 263: `max(0, min(1, v))`. -/
def clamp01 (v : ℝ) : ℝ := max 0 (min 1 v)

/-- The 8-bit quantization of line 263: `(char)(255 * clamp01 v)`; the C cast
truncates toward zero, which on the nonnegative clamped value is the floor. -/
def quantize (v : ℝ) : ℤ := ⌊255 * clamp01 v⌋

/-- Square root instrumented with its precondition: on a negative radicand it
returns the junk value 37 (≠ `Real.sqrt`'s conventional 0) instead of the root.
A function built with `sqrtChk` agrees with its `Real.sqrt` counterpart exactly
when no observable square root is taken of a negative number. -/
def sqrtChk (r : ℝ) : ℝ := if 0 ≤ r then Real.sqrt r else 37

/-- `fresnel` with every square root instrumented by `sqrtChk`. -/
def fresnelChk (I N : Vec3) (ior : ℝ) : ℝ :=
  let cosi := clampR (vdot I N) (-1) 1
  let etai := if 0 < cosi then ior else 1
  let etat := if 0 < cosi then 1 else ior
  let sint := etai / etat * sqrtChk (max 0 (1 - cosi * cosi))
  if 1 ≤ sint then 1
  else
    let cost := sqrtChk (max 0 (1 - sint * sint))
    let cosia := |cosi|
    let Rs := (etat * cosia - etai * cost) / (etat * cosia + etai * cost)
    let Rp := (etai * cosia - etat * cost) / (etai * cosia + etat * cost)
    (Rs * Rs + Rp * Rp) / 2

/-- `refract_core` with its square root instrumented by `sqrtChk`. -/
def refract_coreChk (I N : Vec3) (eta_t eta_i : ℝ) : Vec3 :=
  let cosi := -(clampR (vdot I N) (-1) 1)
  let eta := eta_i / eta_t
  let k := 1 - eta * eta * (1 - cosi * cosi)
  if k < 0 then ⟨1, 0, 0⟩ else I * eta + N * (eta * cosi - sqrtChk k)

/-- `refract` with its square root instrumented by `sqrtChk`. -/
def refractChk (I N : Vec3) (eta_t eta_i : ℝ) : Vec3 :=
  let cosi := -(clampR (vdot I N) (-1) 1)
  if cosi < 0 then refract_coreChk I (-N) eta_i eta_t else refract_coreChk I N eta_t eta_i

/-- `Sphere.ray_intersect` with its square root instrumented by `sqrtChk`. -/
def ray_intersectChk (s : Sphere) (orig dir : Vec3) : Option ℝ :=
  let L := s.center - orig
  let tca := vdot L dir
  if tca < 0 then none
  else
    let d2 := vdot L L - tca * tca
    if d2 > s.radius * s.radius then none
    else
      let thc := sqrtChk (s.radius * s.radius - d2)
      let t0 := tca - thc
      let t1 := tca + thc
      let t0a := if t0 < 0 then t1 else t0
      if t0a < 0 then none else some t0a

/-- `vnorm` with its square root instrumented by `sqrtChk`. -/
def vnormChk (v : Vec3) : ℝ := sqrtChk (vdot v v)

/-- Modelled from the spec: the composite of §4.4 step 5,
`result = diffuse_color * diffuse * albedo[0] + white * specular * albedo[1]
+ reflect_color * albedo[2] + refract_color * albedo[3]`.  It takes no Fresnel
coefficient: `kr` is not a factor of any term. -/
def spec_composite (diffuse_color : Vec3) (dli sli : ℝ) (albedo : Vec4)
    (reflect_color refract_color : Vec3) : Vec3 :=
  diffuse_color * dli * albedo.x
    + (⟨1, 1, 1⟩ : Vec3) * sli * albedo.y
    + reflect_color * albedo.z
    + refract_color * albedo.w

/-! ## Helper lemmas -/

@[simp] theorem add_x (a b : Vec3) : (a + b).x = a.x + b.x := rfl
@[simp] theorem add_y (a b : Vec3) : (a + b).y = a.y + b.y := rfl
@[simp] theorem add_z (a b : Vec3) : (a + b).z = a.z + b.z := rfl
@[simp] theorem sub_x (a b : Vec3) : (a - b).x = a.x - b.x := rfl
@[simp] theorem sub_y (a b : Vec3) : (a - b).y = a.y - b.y := rfl
@[simp] theorem sub_z (a b : Vec3) : (a - b).z = a.z - b.z := rfl
@[simp] theorem neg_x (a : Vec3) : (-a).x = -a.x := rfl
@[simp] theorem neg_y (a : Vec3) : (-a).y = -a.y := rfl
@[simp] theorem neg_z (a : Vec3) : (-a).z = -a.z := rfl
@[simp] theorem smul_x (v : Vec3) (s : ℝ) : (v * s).x = v.x * s := rfl
@[simp] theorem smul_y (v : Vec3) (s : ℝ) : (v * s).y = v.y * s := rfl
@[simp] theorem smul_z (v : Vec3) (s : ℝ) : (v * s).z = v.z * s := rfl

/-- Sanity check for the once-unfolded `refract`: when the source recursion
triggers (`cosi < 0`), the recursive call's own `cosi` is nonnegative, so the
recursion stops after one step. -/
theorem refract_recursion_stops (I N : Vec3)
    (h : -(clampR (vdot I N) (-1) 1) < 0) :
    ¬ (-(clampR (vdot I (-N)) (-1) 1) < 0) := by
  intro h2
  have hc : 0 < clampR (vdot I N) (-1) 1 := by linarith
  have hd : 0 < vdot I N := by
    by_contra hle
    push_neg at hle
    have : clampR (vdot I N) (-1) 1 ≤ 0 :=
      max_le (by norm_num) (le_trans (min_le_right _ _) hle)
    linarith
  have hdot : vdot I (-N) = -(vdot I N) := by simp [vdot]; ring
  have : clampR (vdot I (-N)) (-1) 1 ≤ 0 := by
    rw [hdot]
    exact max_le (by norm_num) (le_trans (min_le_right _ _) (by linarith))
  linarith

theorem march_loop_nil (orig dir : Vec3) (s : MarchState) :
    ∀ fuel depth, march_loop orig dir [] s fuel depth = none := by
  intro fuel depth
  cases fuel with
  | zero => rfl
  | succ n => rfl

theorem ray_marching_of_miss (orig dir : Vec3) (models : List sdf_model) (s : MarchState)
    (hmiss : march_loop orig dir models s MAX_MARCHING_STEPS EPSILON = none) :
    ray_marching orig dir models s =
      (decide (min MAX_DISTANCE (checkerboard orig dir s).1 < 1000),
        (checkerboard orig dir s).2) := by
  unfold ray_marching
  rw [hmiss]

theorem min_flt_max : min MAX_DISTANCE FLT_MAX = MAX_DISTANCE := by
  apply min_eq_left
  norm_num [MAX_DISTANCE, FLT_MAX]

theorem sqrtChk_of_nonneg {r : ℝ} (h : 0 ≤ r) : sqrtChk r = Real.sqrt r := by
  simp only [sqrtChk]
  rw [if_pos h]

theorem sqrtChk_max_zero (e : ℝ) : sqrtChk (max 0 e) = Real.sqrt (max 0 e) :=
  sqrtChk_of_nonneg (le_max_left 0 e)

theorem vdot_self_nonneg (v : Vec3) : 0 ≤ vdot v v :=
  add_nonneg (add_nonneg (mul_self_nonneg _) (mul_self_nonneg _)) (mul_self_nonneg _)

theorem fresnelChk_eq : fresnelChk = fresnel := by
  funext I N ior
  simp only [fresnelChk, fresnel, sqrtChk_max_zero]

theorem refract_coreChk_eq : refract_coreChk = refract_core := by
  funext I N eta_t eta_i
  simp only [refract_coreChk, refract_core]
  split_ifs with h
  · rfl
  · rw [sqrtChk_of_nonneg (not_lt.mp h)]

theorem refractChk_eq : refractChk = refract := by
  funext I N eta_t eta_i
  simp only [refractChk, refract, refract_coreChk_eq]

theorem ray_intersectChk_eq : ray_intersectChk = Sphere.ray_intersect := by
  funext s orig dir
  simp only [ray_intersectChk, Sphere.ray_intersect]
  set tca := vdot (s.center - orig) dir with htca
  set d2 := vdot (s.center - orig) (s.center - orig) - tca * tca with hd2
  by_cases h1 : tca < 0
  · simp only [if_pos h1]
  · simp only [if_neg h1]
    by_cases h2 : d2 > s.radius * s.radius
    · simp only [if_pos h2]
    · simp only [if_neg h2]
      rw [sqrtChk_of_nonneg (sub_nonneg.mpr (not_lt.mp h2))]

theorem vnormChk_eq : vnormChk = vnorm := by
  funext v
  rw [vnormChk, vnorm, sqrtChk_of_nonneg (vdot_self_nonneg v)]

theorem clampR_mem (x : ℝ) : -1 ≤ clampR x (-1) 1 ∧ clampR x (-1) 1 ≤ 1 :=
  ⟨le_max_left _ _, max_le (by norm_num) (min_le_left _ _)⟩

theorem checkerboard_pos (orig dir : Vec3) (s : MarchState)
    (hy : EPSILON < |dir.y|)
    (hv : 0 < plane_t orig dir ∧ |(orig + dir * plane_t orig dir).x| < 10 ∧
      (orig + dir * plane_t orig dir).z < -10 ∧ -30 < (orig + dir * plane_t orig dir).z) :
    checkerboard orig dir s =
      (plane_t orig dir,
        ⟨orig + dir * plane_t orig dir, ⟨0, 1, 0⟩,
          { s.material with diffuse_color := (tile_color
              (orig + dir * plane_t orig dir).x (orig + dir * plane_t orig dir).z) }⟩) := by
  unfold checkerboard
  rw [if_pos hy, if_pos hv]

theorem tile_demo : tile_color (0 : ℝ) (-20) = ⟨0.3, 0.2, 0.1⟩ := by
  have h1 : c_int (0.5 * (0 : ℝ) + 1000) = 1000 := by
    rw [c_int, if_pos (by norm_num)]
    norm_num
  have h2 : c_int (0.5 * (-20 : ℝ)) = -10 := by
    rw [c_int, if_neg (by norm_num)]
    rw [show (0.5 * (-20 : ℝ)) = -(10 : ℝ) by norm_num, Int.ceil_neg]
    norm_num
  rw [tile_color, h1, h2, if_neg (by decide)]

theorem demo_plane : plane_t ⟨0, 0, 0⟩ ⟨0, -1, -5⟩ = 4 := by
  norm_num [plane_t]

theorem demo_pt : (⟨0, 0, 0⟩ : Vec3) + (⟨0, -1, -5⟩ : Vec3) * plane_t ⟨0, 0, 0⟩ ⟨0, -1, -5⟩ =
    ⟨0, -4, -20⟩ := by
  rw [demo_plane]
  ext <;> norm_num

theorem demo_state : checkerboard ⟨0, 0, 0⟩ ⟨0, -1, -5⟩ cast_init_state =
    (4, ⟨⟨0, -4, -20⟩, ⟨0, 1, 0⟩,
      { default_material with diffuse_color := ⟨0.3, 0.2, 0.1⟩ }⟩) := by
  have hy : EPSILON < |(⟨0, -1, -5⟩ : Vec3).y| := by norm_num [EPSILON]
  have hv : 0 < plane_t ⟨0, 0, 0⟩ ⟨0, -1, -5⟩ ∧
      |((⟨0, 0, 0⟩ : Vec3) + (⟨0, -1, -5⟩ : Vec3) * plane_t ⟨0, 0, 0⟩ ⟨0, -1, -5⟩).x| < 10 ∧
      ((⟨0, 0, 0⟩ : Vec3) + (⟨0, -1, -5⟩ : Vec3) * plane_t ⟨0, 0, 0⟩ ⟨0, -1, -5⟩).z < -10 ∧
      -30 < ((⟨0, 0, 0⟩ : Vec3) + (⟨0, -1, -5⟩ : Vec3) * plane_t ⟨0, 0, 0⟩ ⟨0, -1, -5⟩).z := by
    rw [demo_pt, demo_plane]
    norm_num
  rw [checkerboard_pos _ _ _ hy hv, demo_pt, demo_plane]
  dsimp only [cast_init_state]
  rw [tile_demo]

theorem demo_hit : ray_marching ⟨0, 0, 0⟩ ⟨0, -1, -5⟩ [] cast_init_state =
    (true, ⟨⟨0, -4, -20⟩, ⟨0, 1, 0⟩,
      { default_material with diffuse_color := ⟨0.3, 0.2, 0.1⟩ }⟩) := by
  rw [ray_marching_of_miss _ _ _ _ (march_loop_nil _ _ _ _ _), demo_state]
  dsimp only
  rw [show min MAX_DISTANCE (4 : ℝ) = 4 from min_eq_right (by norm_num [MAX_DISTANCE])]
  rw [Prod.mk.injEq]
  refine ⟨?_, rfl⟩
  rw [decide_eq_true_eq]
  norm_num

/-! ## Claim theorems -/

/-- C7: the Fresnel computation sets `kr = 1` whenever the transmitted sine is
`≥ 1` (total internal reflection), and vector refraction returns the fixed
degenerate direction `(1,0,0)` whenever its discriminant is negative (both with
well-defined fallback values — the embedded functions are total, no error is
raised).  The last two conjuncts exhibit concrete inputs on which each fallback
actually fires. -/
theorem fresnel_refract_fallback :
    (∀ (I N : Vec3) (ior : ℝ), 1 ≤ fresnel_sint I N ior → fresnel I N ior = 1) ∧
    (∀ (I N : Vec3) (eta_t eta_i : ℝ), refract_k I N eta_t eta_i < 0 →
      refract_core I N eta_t eta_i = ⟨1, 0, 0⟩) ∧
    (∀ (I N : Vec3) (eta_t eta_i : ℝ),
      refract I N eta_t eta_i = refract_core I (-N) eta_i eta_t ∨
      refract I N eta_t eta_i = refract_core I N eta_t eta_i) ∧
    1 ≤ fresnel_sint ⟨1/2, 0, 0⟩ ⟨1, 0, 0⟩ (3/2) ∧
    refract_k ⟨-1/2, 0, 0⟩ ⟨1, 0, 0⟩ 1 (3/2) < 0 := by
  refine ⟨?_, ?_, ?_, ?_, ?_⟩
  · intro I N ior h
    simp only [fresnel_sint] at h
    simp only [fresnel]
    rw [if_pos h]
  · intro I N eta_t eta_i h
    simp only [refract_k] at h
    simp only [refract_core]
    rw [if_pos h]
  · intro I N eta_t eta_i
    simp only [refract]
    split_ifs with h
    · exact Or.inl rfl
    · exact Or.inr rfl
  · have hv : vdot ⟨1/2, 0, 0⟩ ⟨1, 0, 0⟩ = (1/2 : ℝ) := by norm_num [vdot]
    have hcl : clampR (1/2 : ℝ) (-1) 1 = 1/2 := by
      simp only [clampR]
      norm_num [min_def, max_def]
    have hs : (2/3 : ℝ) ≤ Real.sqrt (3/4) := by
      calc (2/3 : ℝ) = Real.sqrt ((2/3) ^ 2) := (Real.sqrt_sq (by norm_num)).symm
        _ ≤ Real.sqrt (3/4) := Real.sqrt_le_sqrt (by norm_num)
    have h34 : Real.sqrt (max 0 (1 - (1/2 : ℝ) * (1/2))) = Real.sqrt (3/4) := by
      norm_num
    simp only [fresnel_sint, hv, hcl]
    rw [if_pos (show (0:ℝ) < 1/2 by norm_num), if_pos (show (0:ℝ) < 1/2 by norm_num),
      h34]
    rw [div_one]
    linarith
  · norm_num [refract_k, vdot, clampR, min_def, max_def]

/-- C9: every square-root radicand in the shading pipeline is clamped or
guarded nonnegative before the root is taken, and the incident cosines are
clamped to `[-1, 1]`.  Each pipeline function equals its variant in which
`Real.sqrt` is replaced by a checked square root returning a junk value on
negative radicands, so no result ever observes a square root of a negative
number; in this real-valued model every operation is total, so no undefined
numeric result arises. -/
theorem sqrt_domain_guards :
    fresnelChk = fresnel ∧ refract_coreChk = refract_core ∧ refractChk = refract ∧
    ray_intersectChk = Sphere.ray_intersect ∧ vnormChk = vnorm ∧
    (∀ I N : Vec3, -1 ≤ clampR (vdot I N) (-1) 1 ∧ clampR (vdot I N) (-1) 1 ≤ 1) :=
  ⟨fresnelChk_eq, refract_coreChk_eq, refractChk_eq, ray_intersectChk_eq, vnormChk_eq,
    fun I N => clampR_mem (vdot I N)⟩

/-- C8: a framebuffer color whose maximum channel `m` exceeds 1 is rescaled by
`1/m`, after which the maximum channel is exactly 1 and all pairwise channel
ratios are unchanged (stated by cross-multiplication); a color with `m ≤ 1` is
not rescaled; each channel quantizes into the 8-bit range `[0, 255]`.  The last
conjunct evaluates a concrete over-bright color. -/
theorem tone_map_spec :
    (∀ c : Vec3,
      (1 < max c.x (max c.y c.z) →
        tone_map c = c * (1 / max c.x (max c.y c.z)) ∧
        max (tone_map c).x (max (tone_map c).y (tone_map c).z) = 1 ∧
        (tone_map c).x * c.y = (tone_map c).y * c.x ∧
        (tone_map c).y * c.z = (tone_map c).z * c.y ∧
        (tone_map c).x * c.z = (tone_map c).z * c.x) ∧
      (¬ 1 < max c.x (max c.y c.z) → tone_map c = c)) ∧
    (∀ v : ℝ, 0 ≤ quantize v ∧ quantize v ≤ 255) ∧
    tone_map ⟨2, 1, 0⟩ = ⟨1, 1/2, 0⟩ := by
  refine ⟨?_, ?_, ?_⟩
  · intro c
    constructor
    · intro hm
      have hmpos : (0 : ℝ) < max c.x (max c.y c.z) := by linarith
      have heq : tone_map c = c * (1 / max c.x (max c.y c.z)) := by
        simp only [tone_map]
        rw [if_pos hm]
      refine ⟨heq, ?_, ?_, ?_, ?_⟩
      · rw [heq]
        have hinv : (0 : ℝ) ≤ 1 / max c.x (max c.y c.z) :=
          one_div_nonneg.mpr (le_of_lt hmpos)
        simp only [smul_x, smul_y, smul_z]
        rw [← max_mul_of_nonneg _ _ hinv, ← max_mul_of_nonneg _ _ hinv]
        exact mul_one_div_cancel (ne_of_gt hmpos)
      · rw [heq]; simp only [smul_x, smul_y]; ring
      · rw [heq]; simp only [smul_y, smul_z]; ring
      · rw [heq]; simp only [smul_x, smul_z]; ring
    · intro hm
      simp only [tone_map]
      rw [if_neg hm]
  · intro v
    constructor
    · apply Int.floor_nonneg.mpr
      have h0 : (0 : ℝ) ≤ clamp01 v := le_max_left _ _
      exact mul_nonneg (by norm_num) h0
    · have h1 : clamp01 v ≤ 1 := max_le (by norm_num) (min_le_left _ _)
      have : (255 : ℝ) * clamp01 v ≤ 255 := by linarith
      calc quantize v ≤ ⌊(255 : ℝ)⌋ := Int.floor_le_floor this
        _ = 255 := by norm_num
  · simp only [tone_map]
    norm_num
    ext <;> norm_num

/-- C4: `cast_ray` returns exactly the background color `(0.2, 0.7, 0.8)`
whenever `depth > 4` or the ray marcher reports no hit. -/
theorem cast_ray_background (orig dir : Vec3) (models : List sdf_model)
    (lights : List Light) (depth : ℕ)
    (h : 4 < depth ∨ (ray_marching orig dir models cast_init_state).1 = false) :
    cast_ray orig dir models lights depth = ⟨0.2, 0.7, 0.8⟩ := by
  rw [cast_ray]
  exact dif_pos h

/-- C4 witness: on the empty scene, a ray with no checkerboard hit
(direction `(0,0,-1)`, for which `dir.y = 0`) reports a miss, and `cast_ray`
returns exactly the background color. -/
theorem cast_ray_background_witness :
    (ray_marching ⟨0, 0, 0⟩ ⟨0, 0, -1⟩ [] cast_init_state).1 = false ∧
    cast_ray ⟨0, 0, 0⟩ ⟨0, 0, -1⟩ [] [] 0 = ⟨0.2, 0.7, 0.8⟩ := by
  have hcb : checkerboard ⟨0, 0, 0⟩ ⟨0, 0, -1⟩ cast_init_state =
      (FLT_MAX, cast_init_state) := by
    unfold checkerboard
    rw [if_neg]
    norm_num [EPSILON]
  have hm : (ray_marching ⟨0, 0, 0⟩ ⟨0, 0, -1⟩ [] cast_init_state).1 = false := by
    rw [ray_marching_of_miss _ _ _ _ (march_loop_nil _ _ _ _ _), hcb]
    simp only [min_flt_max]
    simp [MAX_DISTANCE]
    norm_num
  exact ⟨hm, cast_ray_background _ _ _ _ _ (Or.inr hm)⟩

/-- C6: when the marching loop ends without a primitive hit (budget of 128
steps exhausted, or an early break), the marcher reports a hit iff
`|dir.y| > EPSILON`, the plane distance `t = -(orig.y + 4)/dir.y` is positive,
the plane point satisfies `|hit.x| < 10` and `-30 < hit.z < -10`, and
`min(MAX_DISTANCE, t) < 1000`; with no valid plane hit the distance compared is
at least `MAX_DISTANCE = 9999 ≥ 1000`, so the marcher reports a miss. -/
theorem ray_marching_plane_iff (orig dir : Vec3) (models : List sdf_model)
    (s : MarchState)
    (hmiss : march_loop orig dir models s MAX_MARCHING_STEPS EPSILON = none) :
    (ray_marching orig dir models s).1 = true ↔
      (EPSILON < |dir.y| ∧ 0 < plane_t orig dir ∧
        |(orig + dir * plane_t orig dir).x| < 10 ∧
        (orig + dir * plane_t orig dir).z < -10 ∧
        -30 < (orig + dir * plane_t orig dir).z ∧
        min MAX_DISTANCE (plane_t orig dir) < 1000) := by
  rw [ray_marching_of_miss _ _ _ _ hmiss]
  dsimp only
  rw [decide_eq_true_eq]
  unfold checkerboard
  split_ifs with hy hv
  · obtain ⟨h1, h2, h3, h4⟩ := hv
    dsimp only
    constructor
    · exact fun hmin => ⟨hy, h1, h2, h3, h4, hmin⟩
    · exact fun h => h.2.2.2.2.2
  · dsimp only
    rw [min_flt_max]
    constructor
    · intro hmin
      exfalso
      norm_num [MAX_DISTANCE] at hmin
    · intro h
      exact absurd ⟨h.2.1, h.2.2.1, h.2.2.2.1, h.2.2.2.2.1⟩ hv
  · dsimp only
    rw [min_flt_max]
    constructor
    · intro hmin
      exfalso
      norm_num [MAX_DISTANCE] at hmin
    · intro h
      exact absurd h.1 hy

/-- C6 witness: on the empty scene the 128-step budget yields no primitive hit,
and for the concrete ray from the origin with direction `(0,-1,-5)` the
hit/miss iff of `ray_marching_plane_iff` holds. -/
theorem ray_marching_plane_iff_witness :
    march_loop ⟨0, 0, 0⟩ ⟨0, -1, -5⟩ [] cast_init_state MAX_MARCHING_STEPS EPSILON
      = none ∧
    ((ray_marching ⟨0, 0, 0⟩ ⟨0, -1, -5⟩ [] cast_init_state).1 = true ↔
      (EPSILON < |(⟨0, -1, -5⟩ : Vec3).y| ∧ 0 < plane_t ⟨0, 0, 0⟩ ⟨0, -1, -5⟩ ∧
        |((⟨0, 0, 0⟩ : Vec3) + (⟨0, -1, -5⟩ : Vec3) * plane_t ⟨0, 0, 0⟩ ⟨0, -1, -5⟩).x| < 10 ∧
        ((⟨0, 0, 0⟩ : Vec3) + (⟨0, -1, -5⟩ : Vec3) * plane_t ⟨0, 0, 0⟩ ⟨0, -1, -5⟩).z < -10 ∧
        -30 < ((⟨0, 0, 0⟩ : Vec3) + (⟨0, -1, -5⟩ : Vec3) * plane_t ⟨0, 0, 0⟩ ⟨0, -1, -5⟩).z ∧
        min MAX_DISTANCE (plane_t ⟨0, 0, 0⟩ ⟨0, -1, -5⟩) < 1000)) :=
  ⟨march_loop_nil _ _ _ _ _,
    ray_marching_plane_iff _ _ _ _ (march_loop_nil _ _ _ _ _)⟩

/-- C2 counterexample: the ray from the origin with direction `(0,-1,-21/4)` is
a valid checkerboard-plane hit at `(0,-4,-21)`; the code chooses brown
`(0.3,0.2,0.1)` (since C truncation gives `int(-10.5) = -10` and
`1000 + (-10) = 990` is even) although the floor sum
`⌊0.5·0 + 1000⌋ + ⌊0.5·(-21)⌋ = 1000 + (-11) = 989` is odd, for which the claim
demands light gray. -/
theorem checkerboard_floor_parity_cex :
    (ray_marching ⟨0, 0, 0⟩ ⟨0, -1, -21/4⟩ [] cast_init_state).1 = true ∧
    (ray_marching ⟨0, 0, 0⟩ ⟨0, -1, -21/4⟩ [] cast_init_state).2.hit = ⟨0, -4, -21⟩ ∧
    (ray_marching ⟨0, 0, 0⟩ ⟨0, -1, -21/4⟩ [] cast_init_state).2.material.diffuse_color
      = ⟨0.3, 0.2, 0.1⟩ ∧
    Odd (⌊0.5 * (0 : ℝ) + 1000⌋ + ⌊0.5 * (-21 : ℝ)⌋) ∧
    (⟨0.3, 0.2, 0.1⟩ : Vec3) ≠ ⟨0.3, 0.3, 0.3⟩ := by
  have hplane : plane_t ⟨0, 0, 0⟩ ⟨0, -1, -21/4⟩ = 4 := by norm_num [plane_t]
  have hpt : (⟨0, 0, 0⟩ : Vec3) + (⟨0, -1, -21/4⟩ : Vec3) *
      plane_t ⟨0, 0, 0⟩ ⟨0, -1, -21/4⟩ = ⟨0, -4, -21⟩ := by
    rw [hplane]
    ext <;> norm_num
  have htile : tile_color (0 : ℝ) (-21) = ⟨0.3, 0.2, 0.1⟩ := by
    have h1 : c_int (0.5 * (0 : ℝ) + 1000) = 1000 := by
      rw [c_int, if_pos (by norm_num)]
      norm_num
    have h2 : c_int (0.5 * (-21 : ℝ)) = -10 := by
      rw [c_int, if_neg (by norm_num)]
      rw [show (0.5 * (-21 : ℝ)) = -(21/2 : ℝ) by norm_num, Int.ceil_neg]
      norm_num
    rw [tile_color, h1, h2, if_neg (by decide)]
  have hy : EPSILON < |(⟨0, -1, -21/4⟩ : Vec3).y| := by norm_num [EPSILON]
  have hv : 0 < plane_t ⟨0, 0, 0⟩ ⟨0, -1, -21/4⟩ ∧
      |((⟨0, 0, 0⟩ : Vec3) + (⟨0, -1, -21/4⟩ : Vec3) *
        plane_t ⟨0, 0, 0⟩ ⟨0, -1, -21/4⟩).x| < 10 ∧
      ((⟨0, 0, 0⟩ : Vec3) + (⟨0, -1, -21/4⟩ : Vec3) *
        plane_t ⟨0, 0, 0⟩ ⟨0, -1, -21/4⟩).z < -10 ∧
      -30 < ((⟨0, 0, 0⟩ : Vec3) + (⟨0, -1, -21/4⟩ : Vec3) *
        plane_t ⟨0, 0, 0⟩ ⟨0, -1, -21/4⟩).z := by
    rw [hpt, hplane]
    norm_num
  have hrm : ray_marching ⟨0, 0, 0⟩ ⟨0, -1, -21/4⟩ [] cast_init_state =
      (true, ⟨⟨0, -4, -21⟩, ⟨0, 1, 0⟩,
        { default_material with diffuse_color := ⟨0.3, 0.2, 0.1⟩ }⟩) := by
    rw [ray_marching_of_miss _ _ _ _ (march_loop_nil _ _ _ _ _),
      checkerboard_pos _ _ _ hy hv, hpt, hplane]
    dsimp only [cast_init_state]
    rw [htile]
    rw [Prod.mk.injEq]
    refine ⟨?_, rfl⟩
    rw [decide_eq_true_eq]
    exact min_lt_iff.mpr (Or.inr (by norm_num))
  refine ⟨by rw [hrm], by rw [hrm], by rw [hrm], ?_, ?_⟩
  · have hf1 : ⌊0.5 * (0 : ℝ) + 1000⌋ = 1000 := by norm_num
    have hf2 : ⌊0.5 * (-21 : ℝ)⌋ = -11 := by norm_num
    rw [hf1, hf2]
    decide
  · intro h
    have := congrArg Vec3.y h
    norm_num at this

/-- C2 amended: on every valid checkerboard-plane hit the chosen tile color is
light gray `(0.3,0.3,0.3)` if `trunc(0.5·hit.x + 1000) + trunc(0.5·hit.z)` is
odd and brown `(0.3,0.2,0.1)` otherwise, where `trunc` is C's float-to-int
conversion (truncation toward zero: floor for nonnegative arguments, ceiling
for negative ones) — not the floor function the claim states. -/
theorem checkerboard_trunc_parity (orig dir : Vec3) (models : List sdf_model)
    (s : MarchState)
    (hmiss : march_loop orig dir models s MAX_MARCHING_STEPS EPSILON = none)
    (hy : EPSILON < |dir.y|)
    (hv : 0 < plane_t orig dir ∧ |(orig + dir * plane_t orig dir).x| < 10 ∧
      (orig + dir * plane_t orig dir).z < -10 ∧ -30 < (orig + dir * plane_t orig dir).z) :
    (ray_marching orig dir models s).2.material.diffuse_color =
      (if Odd (c_int (0.5 * (orig + dir * plane_t orig dir).x + 1000) +
          c_int (0.5 * (orig + dir * plane_t orig dir).z))
        then (⟨0.3, 0.3, 0.3⟩ : Vec3) else ⟨0.3, 0.2, 0.1⟩) := by
  rw [ray_marching_of_miss _ _ _ _ hmiss, checkerboard_pos _ _ _ hy hv]
  rfl

/-- C2 witness for the amended claim: the valid plane hit at `(0,-4,-20)`
(ray direction `(0,-1,-5)` from the origin) satisfies the hypotheses, and its
tile color is given by the truncation-parity rule. -/
theorem checkerboard_trunc_parity_witness :
    (march_loop ⟨0, 0, 0⟩ ⟨0, -1, -5⟩ [] cast_init_state MAX_MARCHING_STEPS EPSILON
        = none ∧
      EPSILON < |(⟨0, -1, -5⟩ : Vec3).y| ∧
      (0 < plane_t ⟨0, 0, 0⟩ ⟨0, -1, -5⟩ ∧
        |((⟨0, 0, 0⟩ : Vec3) + (⟨0, -1, -5⟩ : Vec3) * plane_t ⟨0, 0, 0⟩ ⟨0, -1, -5⟩).x| < 10 ∧
        ((⟨0, 0, 0⟩ : Vec3) + (⟨0, -1, -5⟩ : Vec3) * plane_t ⟨0, 0, 0⟩ ⟨0, -1, -5⟩).z < -10 ∧
        -30 < ((⟨0, 0, 0⟩ : Vec3) + (⟨0, -1, -5⟩ : Vec3) * plane_t ⟨0, 0, 0⟩ ⟨0, -1, -5⟩).z)) ∧
    (ray_marching ⟨0, 0, 0⟩ ⟨0, -1, -5⟩ [] cast_init_state).2.material.diffuse_color =
      (if Odd (c_int (0.5 * ((⟨0, 0, 0⟩ : Vec3) +
            (⟨0, -1, -5⟩ : Vec3) * plane_t ⟨0, 0, 0⟩ ⟨0, -1, -5⟩).x + 1000) +
          c_int (0.5 * ((⟨0, 0, 0⟩ : Vec3) +
            (⟨0, -1, -5⟩ : Vec3) * plane_t ⟨0, 0, 0⟩ ⟨0, -1, -5⟩).z))
        then (⟨0.3, 0.3, 0.3⟩ : Vec3) else ⟨0.3, 0.2, 0.1⟩) := by
  have hy : EPSILON < |(⟨0, -1, -5⟩ : Vec3).y| := by norm_num [EPSILON]
  have hv : 0 < plane_t ⟨0, 0, 0⟩ ⟨0, -1, -5⟩ ∧
      |((⟨0, 0, 0⟩ : Vec3) + (⟨0, -1, -5⟩ : Vec3) * plane_t ⟨0, 0, 0⟩ ⟨0, -1, -5⟩).x| < 10 ∧
      ((⟨0, 0, 0⟩ : Vec3) + (⟨0, -1, -5⟩ : Vec3) * plane_t ⟨0, 0, 0⟩ ⟨0, -1, -5⟩).z < -10 ∧
      -30 < ((⟨0, 0, 0⟩ : Vec3) + (⟨0, -1, -5⟩ : Vec3) * plane_t ⟨0, 0, 0⟩ ⟨0, -1, -5⟩).z := by
    rw [demo_pt, demo_plane]
    norm_num
  exact ⟨⟨march_loop_nil _ _ _ _ _, hy, hv⟩,
    checkerboard_trunc_parity _ _ _ _ (march_loop_nil _ _ _ _ _) hy hv⟩

/-- C1: on every hit shaded at `depth ≤ 4`, the returned color is exactly the
spec's composite `diffuse_color·diffuse·albedo[0] + white·specular·albedo[1] +
reflect_color·albedo[2] + refract_color·albedo[3]` (with the refraction term
black when `kr ≥ 1`); `spec_composite` takes no Fresnel coefficient, so `kr`
is not a factor of any term. -/
theorem cast_ray_composite (orig dir : Vec3) (models : List sdf_model)
    (lights : List Light) (depth : ℕ) (st : MarchState)
    (hd : depth ≤ 4)
    (hrm : ray_marching orig dir models cast_init_state = (true, st)) :
    cast_ray orig dir models lights depth =
      spec_composite st.material.diffuse_color
        (direct_lighting st.hit st.n dir models st.material.specular_exponent
          lights (0, 0)).1
        (direct_lighting st.hit st.n dir models st.material.specular_exponent
          lights (0, 0)).2
        st.material.albedo
        (cast_ray (offset_orig st.hit st.n (reflect_dir_of dir st.n))
          (reflect_dir_of dir st.n) models lights (depth + 1))
        (if fresnel dir st.n st.material.refractive_index < 1 then
          cast_ray
            (offset_orig st.hit st.n (refract_dir_of dir st.n st.material.refractive_index))
            (refract_dir_of dir st.n st.material.refractive_index) models lights (depth + 1)
         else ⟨0, 0, 0⟩) := by
  have hcond : ¬ (4 < depth ∨ (ray_marching orig dir models cast_init_state).1 = false) := by
    rw [hrm]
    push_neg
    exact ⟨by omega, by simp⟩
  rw [cast_ray, dif_neg hcond, hrm]
  rfl

/-- C1 witness: the checkerboard hit of `demo_hit` (empty scene, ray direction
`(0,-1,-5)`, no lights) is shaded at depth 0 by exactly the spec composite. -/
theorem cast_ray_composite_witness :
    ((0 : ℕ) ≤ 4 ∧ ray_marching ⟨0, 0, 0⟩ ⟨0, -1, -5⟩ [] cast_init_state =
      (true, ⟨⟨0, -4, -20⟩, ⟨0, 1, 0⟩,
        { default_material with diffuse_color := ⟨0.3, 0.2, 0.1⟩ }⟩)) ∧
    cast_ray ⟨0, 0, 0⟩ ⟨0, -1, -5⟩ [] [] 0 =
      spec_composite ⟨0.3, 0.2, 0.1⟩
        (direct_lighting ⟨0, -4, -20⟩ ⟨0, 1, 0⟩ ⟨0, -1, -5⟩ [] 0 [] (0, 0)).1
        (direct_lighting ⟨0, -4, -20⟩ ⟨0, 1, 0⟩ ⟨0, -1, -5⟩ [] 0 [] (0, 0)).2
        ⟨1, 0, 0, 0⟩
        (cast_ray (offset_orig ⟨0, -4, -20⟩ ⟨0, 1, 0⟩ (reflect_dir_of ⟨0, -1, -5⟩ ⟨0, 1, 0⟩))
          (reflect_dir_of ⟨0, -1, -5⟩ ⟨0, 1, 0⟩) [] [] 1)
        (if fresnel ⟨0, -1, -5⟩ ⟨0, 1, 0⟩ 1 < 1 then
          cast_ray (offset_orig ⟨0, -4, -20⟩ ⟨0, 1, 0⟩ (refract_dir_of ⟨0, -1, -5⟩ ⟨0, 1, 0⟩ 1))
            (refract_dir_of ⟨0, -1, -5⟩ ⟨0, 1, 0⟩ 1) [] [] 1
         else ⟨0, 0, 0⟩) :=
  ⟨⟨Nat.zero_le 4, demo_hit⟩,
    cast_ray_composite _ _ _ _ _ _ (Nat.zero_le 4) demo_hit⟩

/-- C10: a checkerboard-plane hit writes only `diffuse_color`; the other
material fields keep the values of `cast_ray`'s default-constructed material
(refractive index 1, albedo `(1,0,0,0)`, specular exponent 0), so the plane is
shaded with the diffuse term alone: the composite collapses to
`diffuse_color * diffuse_light_intensity`. -/
theorem plane_hit_material_frame (orig dir : Vec3) (models : List sdf_model)
    (lights : List Light) (depth : ℕ)
    (hd : depth ≤ 4)
    (hmiss : march_loop orig dir models cast_init_state MAX_MARCHING_STEPS EPSILON
      = none)
    (hy : EPSILON < |dir.y|)
    (hv : 0 < plane_t orig dir ∧ |(orig + dir * plane_t orig dir).x| < 10 ∧
      (orig + dir * plane_t orig dir).z < -10 ∧ -30 < (orig + dir * plane_t orig dir).z)
    (ht : plane_t orig dir < 1000) :
    (ray_marching orig dir models cast_init_state).2.material.refractive_index = 1 ∧
    (ray_marching orig dir models cast_init_state).2.material.albedo = ⟨1, 0, 0, 0⟩ ∧
    (ray_marching orig dir models cast_init_state).2.material.specular_exponent = 0 ∧
    cast_ray orig dir models lights depth =
      (ray_marching orig dir models cast_init_state).2.material.diffuse_color *
        (direct_lighting (ray_marching orig dir models cast_init_state).2.hit
          (ray_marching orig dir models cast_init_state).2.n dir models
          (ray_marching orig dir models cast_init_state).2.material.specular_exponent
          lights (0, 0)).1 := by
  have hrm : ray_marching orig dir models cast_init_state =
      (true, ⟨orig + dir * plane_t orig dir, ⟨0, 1, 0⟩,
        { default_material with diffuse_color := (tile_color
            (orig + dir * plane_t orig dir).x (orig + dir * plane_t orig dir).z) }⟩) := by
    rw [ray_marching_of_miss _ _ _ _ hmiss, checkerboard_pos _ _ _ hy hv]
    dsimp only [cast_init_state]
    rw [Prod.mk.injEq]
    refine ⟨?_, rfl⟩
    rw [decide_eq_true_eq]
    exact min_lt_iff.mpr (Or.inr ht)
  have hcond : ¬ (4 < depth ∨ (ray_marching orig dir models cast_init_state).1 = false) := by
    rw [hrm]
    push_neg
    exact ⟨by omega, by simp⟩
  refine ⟨by rw [hrm]; rfl, by rw [hrm]; rfl, by rw [hrm]; rfl, ?_⟩
  rw [cast_ray, dif_neg hcond]
  simp only [hrm]
  ext <;> simp [default_material]

/-- C10 witness: the checkerboard hit of the `(0,-1,-5)` ray on the empty scene
satisfies the hypotheses, and its shading collapses to the diffuse term. -/
theorem plane_hit_material_frame_witness :
    ((0 : ℕ) ≤ 4 ∧
      march_loop ⟨0, 0, 0⟩ ⟨0, -1, -5⟩ [] cast_init_state MAX_MARCHING_STEPS EPSILON
        = none ∧
      EPSILON < |(⟨0, -1, -5⟩ : Vec3).y| ∧
      plane_t ⟨0, 0, 0⟩ ⟨0, -1, -5⟩ < 1000) ∧
    ((ray_marching ⟨0, 0, 0⟩ ⟨0, -1, -5⟩ [] cast_init_state).2.material.refractive_index
        = 1 ∧
      (ray_marching ⟨0, 0, 0⟩ ⟨0, -1, -5⟩ [] cast_init_state).2.material.albedo
        = ⟨1, 0, 0, 0⟩ ∧
      (ray_marching ⟨0, 0, 0⟩ ⟨0, -1, -5⟩ [] cast_init_state).2.material.specular_exponent
        = 0 ∧
      cast_ray ⟨0, 0, 0⟩ ⟨0, -1, -5⟩ [] [] 0 =
        (ray_marching ⟨0, 0, 0⟩ ⟨0, -1, -5⟩ [] cast_init_state).2.material.diffuse_color *
          (direct_lighting (ray_marching ⟨0, 0, 0⟩ ⟨0, -1, -5⟩ [] cast_init_state).2.hit
            (ray_marching ⟨0, 0, 0⟩ ⟨0, -1, -5⟩ [] cast_init_state).2.n ⟨0, -1, -5⟩ []
            (ray_marching ⟨0, 0, 0⟩ ⟨0, -1, -5⟩ [] cast_init_state).2.material.specular_exponent
            [] (0, 0)).1) := by
  have hy : EPSILON < |(⟨0, -1, -5⟩ : Vec3).y| := by norm_num [EPSILON]
  have hv : 0 < plane_t ⟨0, 0, 0⟩ ⟨0, -1, -5⟩ ∧
      |((⟨0, 0, 0⟩ : Vec3) + (⟨0, -1, -5⟩ : Vec3) * plane_t ⟨0, 0, 0⟩ ⟨0, -1, -5⟩).x| < 10 ∧
      ((⟨0, 0, 0⟩ : Vec3) + (⟨0, -1, -5⟩ : Vec3) * plane_t ⟨0, 0, 0⟩ ⟨0, -1, -5⟩).z < -10 ∧
      -30 < ((⟨0, 0, 0⟩ : Vec3) + (⟨0, -1, -5⟩ : Vec3) * plane_t ⟨0, 0, 0⟩ ⟨0, -1, -5⟩).z := by
    rw [demo_pt, demo_plane]
    norm_num
  have ht : plane_t ⟨0, 0, 0⟩ ⟨0, -1, -5⟩ < 1000 := by
    rw [demo_plane]
    norm_num
  exact ⟨⟨Nat.zero_le 4, march_loop_nil _ _ _ _ _, hy, ht⟩,
    plane_hit_material_frame _ _ _ _ _ (Nat.zero_le 4) (march_loop_nil _ _ _ _ _) hy hv ht⟩

theorem scene_sdf_aux_spec (point : Vec3) :
    ∀ (ms : List sdf_model) (md : ℝ) (h : Option sdf_model),
      (scene_sdf_aux point ms md h).1 ≤ md ∧
      (∀ m ∈ ms, 0 ≤ m.sdf point → (scene_sdf_aux point ms md h).1 ≤ m.sdf point) ∧
      (scene_sdf_aux point ms md h = (md, h) ∨
        ∃ m ∈ ms, (scene_sdf_aux point ms md h).2 = some m ∧
          (scene_sdf_aux point ms md h).1 = m.sdf point ∧ 0 ≤ m.sdf point ∧
          (scene_sdf_aux point ms md h).1 < md) := by
  intro ms
  induction ms with
  | nil =>
    intro md h
    exact ⟨le_refl _, by simp, Or.inl rfl⟩
  | cons m ms ih =>
    intro md h
    by_cases hneg : m.sdf point < 0
    · have hstep : scene_sdf_aux point (m :: ms) md h = scene_sdf_aux point ms md h := by
        simp only [scene_sdf_aux]
        rw [if_pos hneg]
      obtain ⟨ih1, ih2, ih3⟩ := ih md h
      rw [hstep]
      refine ⟨ih1, ?_, ?_⟩
      · intro m2 hm2 hnn
        rcases List.mem_cons.mp hm2 with rfl | hm2
        · exact absurd hnn (not_le.mpr hneg)
        · exact ih2 m2 hm2 hnn
      · rcases ih3 with heq | ⟨m2, hm2, hp⟩
        · exact Or.inl heq
        · exact Or.inr ⟨m2, List.mem_cons_of_mem m hm2, hp⟩
    · by_cases hlt : md > m.sdf point
      · have hstep : scene_sdf_aux point (m :: ms) md h =
            scene_sdf_aux point ms (m.sdf point) (some m) := by
          simp only [scene_sdf_aux]
          rw [if_neg hneg, if_pos hlt]
        obtain ⟨ih1, ih2, ih3⟩ := ih (m.sdf point) (some m)
        rw [hstep]
        refine ⟨le_trans ih1 (le_of_lt hlt), ?_, ?_⟩
        · intro m2 hm2 hnn
          rcases List.mem_cons.mp hm2 with rfl | hm2
          · exact ih1
          · exact ih2 m2 hm2 hnn
        · rcases ih3 with heq | ⟨m2, hm2, h2, h3, h4, h5⟩
          · refine Or.inr ⟨m, List.mem_cons_self m ms, ?_, ?_, not_lt.mp hneg, ?_⟩
            · rw [heq]
            · rw [heq]
            · rw [heq]
              exact hlt
          · exact Or.inr ⟨m2, List.mem_cons_of_mem m hm2, h2, h3, h4,
              lt_trans h5 hlt⟩
      · have hstep : scene_sdf_aux point (m :: ms) md h = scene_sdf_aux point ms md h := by
          simp only [scene_sdf_aux]
          rw [if_neg hneg, if_neg hlt]
        obtain ⟨ih1, ih2, ih3⟩ := ih md h
        rw [hstep]
        refine ⟨ih1, ?_, ?_⟩
        · intro m2 hm2 hnn
          rcases List.mem_cons.mp hm2 with rfl | hm2
          · exact le_trans ih1 (not_lt.mp hlt)
          · exact ih2 m2 hm2 hnn
        · rcases ih3 with heq | ⟨m2, hm2, hp⟩
          · exact Or.inl heq
          · exact Or.inr ⟨m2, List.mem_cons_of_mem m hm2, hp⟩

theorem scene_sdf_aux_filter (point : Vec3) :
    ∀ (ms : List sdf_model) (md : ℝ) (h : Option sdf_model),
      scene_sdf_aux point ms md h =
        scene_sdf_aux point (ms.filter fun m => decide (0 ≤ m.sdf point)) md h := by
  intro ms
  induction ms with
  | nil => intro md h; rfl
  | cons m ms ih =>
    intro md h
    by_cases hneg : m.sdf point < 0
    · have hf : decide (0 ≤ m.sdf point) = false :=
        decide_eq_false (not_le.mpr hneg)
      rw [List.filter_cons, hf]
      simp only [scene_sdf_aux]
      rw [if_pos hneg]
      exact ih md h
    · have hf : decide (0 ≤ m.sdf point) = true :=
        decide_eq_true (not_lt.mp hneg)
      rw [List.filter_cons, hf]
      simp only [scene_sdf_aux]
      rw [if_neg hneg, if_neg hneg]
      by_cases hlt : md > m.sdf point
      · rw [if_pos hlt, if_pos hlt]
        exact ih _ _
      · rw [if_neg hlt, if_neg hlt]
        exact ih md h

/-- C3 counterexample: a sphere of radius 1 centered at `(20000,0,0)` has
nonnegative distance `19999` from the origin (so it qualifies under the claim's
exclusion rule, which excludes only negative distances), yet the aggregator
returns the sentinel `(MAX_DISTANCE, no model)` because the distance is not
below `MAX_DISTANCE` — contradicting "returns the minimal nonnegative distance
together with the primitive achieving it". -/
theorem scene_sdf_far_primitive_cex :
    scene_sdf ⟨0, 0, 0⟩ [(Sphere.mk ⟨20000, 0, 0⟩ 1 default_material).toModel]
      = (MAX_DISTANCE, none) ∧
    (Sphere.mk ⟨20000, 0, 0⟩ 1 default_material).toModel.sdf ⟨0, 0, 0⟩ = 19999 ∧
    (0 : ℝ) ≤ 19999 ∧ (19999 : ℝ) ≠ MAX_DISTANCE := by
  have hsdf : (Sphere.mk ⟨20000, 0, 0⟩ 1 default_material).toModel.sdf ⟨0, 0, 0⟩
      = 19999 := by
    show vnorm ((⟨0, 0, 0⟩ : Vec3) - ⟨20000, 0, 0⟩) - 1 = 19999
    have h1 : (⟨0, 0, 0⟩ : Vec3) - ⟨20000, 0, 0⟩ = ⟨-20000, 0, 0⟩ := by
      ext <;> norm_num
    have h2 : vdot ⟨-20000, 0, 0⟩ ⟨-20000, 0, 0⟩ = ((20000 : ℝ)) ^ 2 := by
      norm_num [vdot]
    rw [h1, vnorm, h2, Real.sqrt_sq (by norm_num)]
    norm_num
  refine ⟨?_, hsdf, by norm_num, by norm_num [MAX_DISTANCE]⟩
  show scene_sdf_aux _ _ MAX_DISTANCE none = (MAX_DISTANCE, none)
  simp only [scene_sdf_aux]
  rw [if_neg (by rw [hsdf]; norm_num), if_neg (by rw [hsdf]; norm_num [MAX_DISTANCE])]

/-- C3 amended: the aggregator excludes every primitive whose distance at the
query point is negative (filtering them out changes nothing), and returns the
minimal nonnegative distance, together with a primitive achieving it, provided
that minimum is below `MAX_DISTANCE` (which primitive is reported under a tie
is left unspecified); otherwise (no primitive with a nonnegative distance
below `MAX_DISTANCE`) it returns the sentinel `(MAX_DISTANCE, no model)`.  In
particular a sphere is excluded at its own center, where its distance is
`-r`. -/
theorem scene_sdf_characterization :
    (∀ (point : Vec3) (models : List sdf_model),
      scene_sdf point models =
        scene_sdf point (models.filter fun m => decide (0 ≤ m.sdf point)) ∧
      (scene_sdf point models).1 ≤ MAX_DISTANCE ∧
      (∀ m ∈ models, 0 ≤ m.sdf point → (scene_sdf point models).1 ≤ m.sdf point) ∧
      (∀ m, (scene_sdf point models).2 = some m →
        m ∈ models ∧ m.sdf point = (scene_sdf point models).1 ∧
        0 ≤ (scene_sdf point models).1 ∧ (scene_sdf point models).1 < MAX_DISTANCE) ∧
      ((scene_sdf point models).2 = none →
        (scene_sdf point models).1 = MAX_DISTANCE ∧
        ∀ m ∈ models, 0 ≤ m.sdf point → MAX_DISTANCE ≤ m.sdf point) ∧
      ((∃ m ∈ models, 0 ≤ m.sdf point ∧ m.sdf point < MAX_DISTANCE) →
        ∃ m ∈ models, (scene_sdf point models).2 = some m ∧
          m.sdf point = (scene_sdf point models).1)) ∧
    (∀ (c : Vec3) (r : ℝ) (mat : Material), 0 < r →
      (Sphere.mk c r mat).toModel.sdf c = -r ∧
      scene_sdf c [(Sphere.mk c r mat).toModel] = (MAX_DISTANCE, none)) := by
  constructor
  · intro point models
    obtain ⟨h1, h2, h3⟩ := scene_sdf_aux_spec point models MAX_DISTANCE none
    refine ⟨scene_sdf_aux_filter point models MAX_DISTANCE none, h1, h2, ?_, ?_, ?_⟩
    · intro m hm
      rcases h3 with heq | ⟨m2, hm2, he2, he1, hnn, hlt⟩
      · rw [show (scene_sdf point models).2 = (scene_sdf_aux point models MAX_DISTANCE none).2
          from rfl, heq] at hm
        exact absurd hm (by simp)
      · have hmm : m2 = m := Option.some.inj (he2.symm.trans hm)
        subst hmm
        exact ⟨hm2, he1.symm, he1 ▸ hnn, hlt⟩
    · intro hnone
      rcases h3 with heq | ⟨m2, hm2, he2, he1, hnn, hlt⟩
      · constructor
        · rw [show (scene_sdf point models).1 = (scene_sdf_aux point models MAX_DISTANCE none).1
            from rfl, heq]
        · intro m hm hnn
          have := h2 m hm hnn
          rw [heq] at this
          exact this
      · rw [show (scene_sdf point models).2 = (scene_sdf_aux point models MAX_DISTANCE none).2
          from rfl, he2] at hnone
        exact absurd hnone (by simp)
    · rintro ⟨m, hm, hnn, hlt⟩
      rcases h3 with heq | ⟨m2, hm2, he2, he1, hnn2, hlt2⟩
      · have := h2 m hm hnn
        rw [heq] at this
        exact absurd hlt (not_lt.mpr this)
      · exact ⟨m2, hm2, he2, he1.symm⟩
  · intro c r mat hr
    have hsdf : (Sphere.mk c r mat).toModel.sdf c = -r := by
      show vnorm (c - c) - r = -r
      have h0 : c - c = ⟨0, 0, 0⟩ := by ext <;> simp
      have hn : vnorm ⟨0, 0, 0⟩ = 0 := by
        rw [vnorm, show vdot ⟨0, 0, 0⟩ ⟨0, 0, 0⟩ = 0 by norm_num [vdot], Real.sqrt_zero]
      rw [h0, hn]
      ring
    refine ⟨hsdf, ?_⟩
    show scene_sdf_aux _ _ MAX_DISTANCE none = (MAX_DISTANCE, none)
    simp only [scene_sdf_aux]
    rw [if_pos (by rw [hsdf]; linarith)]

theorem cast_depths_le :
    ∀ (n : ℕ) (orig dir : Vec3) (models : List sdf_model) (lights : List Light)
      (depth : ℕ), 5 - depth ≤ n →
      ∀ d ∈ cast_depths orig dir models lights depth, d ≤ max depth 5 := by
  intro n
  induction n with
  | zero =>
    intro orig dir models lights depth hn d hd
    rw [cast_depths, dif_pos (Or.inl (by omega : 4 < depth))] at hd
    rw [List.mem_singleton] at hd
    subst hd
    exact le_max_left _ _
  | succ n ih =>
    intro orig dir models lights depth hn d hd
    by_cases hg : 4 < depth ∨ (ray_marching orig dir models cast_init_state).1 = false
    · rw [cast_depths, dif_pos hg] at hd
      rw [List.mem_singleton] at hd
      subst hd
      exact le_max_left _ _
    · have hdep : depth ≤ 4 := by
        rcases not_or.mp hg with ⟨h1, _⟩
        omega
      rw [cast_depths, dif_neg hg] at hd
      simp only [List.mem_cons, List.mem_append] at hd
      have hchild : ∀ o2 d2 : Vec3, d ∈ cast_depths o2 d2 models lights (depth + 1) →
          d ≤ max depth 5 := by
        intro o2 d2 hmem
        have := ih o2 d2 models lights (depth + 1) (by omega) d hmem
        rw [max_eq_right (by omega : depth + 1 ≤ 5)] at this
        exact le_trans this (le_max_right _ _)
      rcases hd with rfl | hd | hd
      · exact le_max_left _ _
      · split_ifs at hd with hkr
        · exact hchild _ _ hd
        · exact absurd hd (List.not_mem_nil d)
      · exact hchild _ _ hd

theorem cast_depths_len :
    ∀ (n : ℕ) (orig dir : Vec3) (models : List sdf_model) (lights : List Light)
      (depth : ℕ), 5 - depth ≤ n →
      (cast_depths orig dir models lights depth).length ≤ 2 ^ (n + 1) - 1 := by
  intro n
  induction n with
  | zero =>
    intro orig dir models lights depth hn
    rw [cast_depths, dif_pos (Or.inl (by omega : 4 < depth))]
    simp
  | succ n ih =>
    intro orig dir models lights depth hn
    have hp : 1 ≤ 2 ^ (n + 1) := Nat.one_le_two_pow
    have h2 : (2 : ℕ) ^ (n + 1 + 1) = 2 * 2 ^ (n + 1) := by ring
    by_cases hg : 4 < depth ∨ (ray_marching orig dir models cast_init_state).1 = false
    · rw [cast_depths, dif_pos hg]
      simp only [List.length_singleton]
      omega
    · rw [cast_depths, dif_neg hg]
      simp only [List.length_cons, List.length_append]
      split_ifs with hkr
      · refine le_trans (Nat.add_le_add (Nat.add_le_add
          (ih _ _ _ _ _ (by omega)) (ih _ _ _ _ _ (by omega))) (le_refl 1)) ?_
        omega
      · simp only [List.length_nil]
        refine le_trans (Nat.add_le_add (Nat.add_le_add (le_refl 0)
          (ih _ _ _ _ _ (by omega))) (le_refl 1)) ?_
        omega

/-- C5: the recursion tree of a top-level `cast` call is finite — with the
up-to-2-way reflect/refract branching and the depth cap it has at most
`2⁶ - 1 = 63` invocations — and no invocation in the tree runs with a depth
parameter exceeding 5 (4 recursive extensions beyond the initial call reach
depth 5, where the guard `depth > 4` stops further recursion). -/
theorem cast_ray_depth_bound :
    ∀ (orig dir : Vec3) (models : List sdf_model) (lights : List Light),
      (∀ d ∈ cast_depths orig dir models lights 0, d ≤ 5) ∧
      (cast_depths orig dir models lights 0).length ≤ 63 := by
  intro orig dir models lights
  constructor
  · intro d hd
    have := cast_depths_le 5 orig dir models lights 0 (by omega) d hd
    rw [max_eq_right (by omega : (0 : ℕ) ≤ 5)] at this
    exact this
  · have := cast_depths_len 5 orig dir models lights 0 (by omega)
    norm_num at this
    exact this

end

end TinyRT
